import Mathlib

/-!
Verification development for a small Lox-style scripting language
(scanner, recursive-descent parser, tree-walking evaluator).

The definitions below are a shallow embedding of the Rust sources
(`src/lexer.rs`, `src/parser.rs`, `src/ast.rs`, `src/interpreter.rs`,
`src/main.rs`):

* Source text is modelled as `List Char`; the scanner consumes chars
  exactly as the Rust `chars()` iterator does (counts are in
  characters).  The Rust code also slices byte strings with those
  character counts, so whole token streams are program-faithful exactly
  on ASCII-only sources; theorems about streams carry that hypothesis,
  and only the first scanned token is used without it (see `tokenize`).
* `f64` values are modelled as `Rat`.  No claim proved here depends on
  floating-point rounding, infinities or NaN; the exact decimal values,
  comparisons and equalities exercised by the theorems coincide with the
  `f64` semantics.
* The shared, reference-counted, interior-mutable environment chain
  (`Rc<RefCell<Environment>>`) is modelled by explicit state passing:
  every evaluation step returns the updated chain.  The only aliases of
  an environment in the interpreter are the links of the single chain,
  so threading the chain through evaluation is faithful.
* Rust `panic!` (reachable through `LoxResult::unwrap_number` /
  `unwrap_string`) is modelled as a third, `panic` outcome of
  evaluation, distinct from structured runtime errors.
-/

/-- Runtime type tags, mirroring `enum LoxType` in `interpreter.rs`. -/
inductive LoxType where
  | number
  | str
  | bool
  | nil
deriving DecidableEq, Repr

/-- Debug rendering of a `LoxType` as produced by Rust's derived
`Debug` instance (used in runtime error messages via `{:?}`). -/
def LoxType.debugStr : LoxType → String
  | .number => "Number"
  | .str => "Str"
  | .bool => "Bool"
  | .nil => "Nil"

/-- Runtime values, mirroring `enum LoxResult` in `interpreter.rs`.
`f64` is modelled as `Rat`. -/
inductive LoxResult where
  | number (n : Rat)
  | str (s : String)
  | bool (b : Bool)
  | nil
deriving DecidableEq, Repr

/-- Mirrors `LoxResult::get_type`. -/
def LoxResult.get_type : LoxResult → LoxType
  | .number _ => .number
  | .str _ => .str
  | .bool _ => .bool
  | .nil => .nil

/-- Mirrors `LoxResult::unwrap_number`; `none` stands for the `panic!`
arm (message "LoxResult is not a number"). -/
def LoxResult.unwrap_number : LoxResult → Option Rat
  | .number n => some n
  | _ => none

/-- Mirrors `LoxResult::unwrap_string`; `none` stands for the `panic!`
arm. -/
def LoxResult.unwrap_string : LoxResult → Option String
  | .str s => some s
  | _ => none

/-- Mirrors the derived `PartialEq` of `LoxResult`: same-variant values
compare componentwise, cross-variant comparison is `false`. -/
def LoxResult.loxEq : LoxResult → LoxResult → Bool
  | .number a, .number b => a == b
  | .str a, .str b => a == b
  | .bool a, .bool b => a == b
  | .nil, .nil => true
  | _, _ => false

/-- Variant rank used by the derived `PartialOrd` of `LoxResult`
(declaration order: `Number`, `Str`, `Bool`, `Nil`). -/
def LoxResult.variantRank : LoxResult → Nat
  | .number _ => 0
  | .str _ => 1
  | .bool _ => 2
  | .nil => 3

/-- Mirrors the derived `PartialOrd` of `LoxResult`: values of different
variants order by declaration order; same-variant values compare their
payloads (`f64` by value, `String` lexicographically, `bool` with
`false < true`). -/
def LoxResult.partialCmp : LoxResult → LoxResult → Ordering
  | .number a, .number b => compare a b
  | .str a, .str b => compare a b
  | .bool a, .bool b => compare a b
  | .nil, .nil => .eq
  | a, b => compare a.variantRank b.variantRank

/-- Structured runtime error, mirroring `struct LoxRuntimeError`. -/
structure LoxRuntimeError where
  message : String
  index : Nat
  len : Nat
deriving DecidableEq, Repr

/-- Binary operators, mirroring `enum BinOp` in `ast.rs`. -/
inductive BinOp where
  | sum
  | substraction
  | product
  | division
  | equals
  | notEquals
  | greaterThan
  | greaterThanEquals
  | lessThan
  | lessThanEquals
  | comma
deriving DecidableEq, Repr

/-- Literals, mirroring `enum Literal` in `ast.rs` (`True`/`False`/`Nil`
are renamed with an `l` prefix because of Lean keywords/ambiguity). -/
inductive LoxLiteral where
  | str (s : String)
  | number (n : Rat)
  | ltrue
  | lfalse
  | lnil
deriving DecidableEq, Repr

/-- Unary operators, mirroring `enum UnaryOp` in `ast.rs`. -/
inductive UnaryOp where
  | negate
  | logicNegate
deriving DecidableEq, Repr

/-- Expressions, mirroring `enum Expr` in `ast.rs`; every variant
carries its source span (`index`, `len`).  `Variable` is renamed `var`
(Lean keyword). -/
inductive Expr where
  | binary (left : Expr) (operator : BinOp) (right : Expr) (index : Nat) (len : Nat)
  | grouping (expr : Expr) (index : Nat) (len : Nat)
  | literal (value : LoxLiteral) (index : Nat) (len : Nat)
  | unary (operator : UnaryOp) (right : Expr) (index : Nat) (len : Nat)
  | ternary (condition : Expr) (left : Expr) (right : Expr) (index : Nat) (len : Nat)
  | var (value : String) (index : Nat) (len : Nat)
  | assign (key : String) (value : Expr) (index : Nat) (len : Nat)
deriving DecidableEq, Repr

/-- Mirrors `Expr::index`. -/
def Expr.index : Expr → Nat
  | .binary _ _ _ i _ => i
  | .grouping _ i _ => i
  | .literal _ i _ => i
  | .unary _ _ i _ => i
  | .ternary _ _ _ i _ => i
  | .var _ i _ => i
  | .assign _ _ i _ => i

/-- Mirrors `Expr::len`. -/
def Expr.len : Expr → Nat
  | .binary _ _ _ _ n => n
  | .grouping _ _ n => n
  | .literal _ _ n => n
  | .unary _ _ _ n => n
  | .ternary _ _ _ _ n => n
  | .var _ _ n => n
  | .assign _ _ _ n => n

/-- Statements, mirroring `enum Stmt` in `ast.rs` (`Variable` is
renamed `var`). -/
inductive Stmt where
  | expression (e : Expr)
  | print (e : Expr)
  | var (name : String) (init : Option Expr)
  | block (stmts : List Stmt)

/-- Environment chain, mirroring `struct Environment`: a scope (the
`HashMap<String, Option<LoxResult>>`, modelled as an association list
with insert-replaces-existing semantics) plus an optional parent. -/
inductive Environment where
  | mk (scope : List (String × Option LoxResult)) (parent : Option Environment)

/-- Scope component of an environment. -/
def Environment.scope : Environment → List (String × Option LoxResult)
  | .mk s _ => s

/-- Parent component of an environment. -/
def Environment.parent : Environment → Option Environment
  | .mk _ p => p

/-- Association-list lookup, modelling `HashMap::get`. -/
def scopeGet (key : String) : List (String × Option LoxResult) → Option (Option LoxResult)
  | [] => none
  | (k, v) :: t => if k = key then some v else scopeGet key t

/-- Association-list insert, modelling `HashMap::insert` (replaces an
existing binding for the key, otherwise appends). -/
def scopeInsert (key : String) (value : Option LoxResult) :
    List (String × Option LoxResult) → List (String × Option LoxResult)
  | [] => [(key, value)]
  | (k, v) :: t => if k = key then (key, value) :: t else (k, v) :: scopeInsert key value t

/-- Association-list membership, modelling `HashMap::contains_key`. -/
def scopeContains (key : String) (s : List (String × Option LoxResult)) : Bool :=
  (scopeGet key s).isSome

/-- Mirrors `Environment::get`: look the key up in the local scope, then
recursively in the parent chain. -/
def Environment.get : Environment → String → Option (Option LoxResult)
  | .mk scope (some p), key => (scopeGet key scope).orElse (fun _ => p.get key)
  | .mk scope none, key => scopeGet key scope

/-- Mirrors `Environment::declare`: insert into the innermost scope. -/
def Environment.declare : Environment → String → Option LoxResult → Environment
  | .mk scope parent, key, value => .mk (scopeInsert key value scope) parent

/-- Mirrors `Environment::set`: overwrite the binding in the nearest
scope that already declares the key; `none` models the `Err(())`
result when the key is undeclared in the whole chain. -/
def Environment.set : Environment → String → LoxResult → Option Environment
  | .mk scope parent, key, value =>
    if scopeContains key scope then
      some (.mk (scopeInsert key (some value) scope) parent)
    else
      match parent with
      | some p => (p.set key value).map (fun p2 => .mk scope (some p2))
      | none => none

/-- The empty global environment (`Environment::new`). -/
def Environment.new : Environment := .mk [] none

/-- Mirrors `Environment::with_parent`. -/
def Environment.with_parent (env : Environment) : Environment := .mk [] (some env)

/-- Parent of a block scope, used when a finished block hands control
back to the enclosing environment (the Rust code simply drops the `Rc`
of the child).  Total: defaults to the environment itself, which is
unreachable because block children are built by `with_parent`. -/
def Environment.parentD : Environment → Environment
  | .mk _ (some p) => p
  | .mk s none => .mk s none

/-- Outcome of evaluating an expression or statement: a value or a
structured runtime error (each with the resulting environment chain,
mirroring the in-place mutation of the shared `Rc<RefCell<_>>`), or a
Rust `panic!` aborting the process. -/
inductive EvalOut (α : Type) where
  | ok (v : α) (env : Environment)
  | err (e : LoxRuntimeError) (env : Environment)
  | panic (msg : String)

/-- Mirrors `Interpretable for Expr::eval` in `interpreter.rs`. -/
def Expr.eval : Expr → Environment → EvalOut LoxResult
  | .var value index len, env =>
    match env.get value with
    | some (some res) => .ok res env
    | some none => .ok .nil env
    | none =>
      .err { message := "The variable was not initialized before usage",
             index := index, len := index + len } env
  | .assign key value index len, env =>
    match value.eval env with
    | .ok res env1 =>
      match env1.get key with
      | some _ =>
        match env1.set key res with
        | some env2 => .ok res env2
        | none =>
          .err { message := "Variable \"" ++ key ++ "\" not initialized",
                 index := index, len := len } env1
      | none =>
        .err { message := "Variable \"" ++ key ++ "\" was not initialized",
               index := index, len := len } env1
    | .err e env1 => .err e env1
    | .panic m => .panic m
  | .literal value _ _, env =>
    match value with
    | .number n => .ok (.number n) env
    | .str s => .ok (.str s) env
    | .ltrue => .ok (.bool true) env
    | .lfalse => .ok (.bool false) env
    | .lnil => .ok .nil env
  | .unary operator right index len, env =>
    match right.eval env with
    | .ok r env1 =>
      match operator with
      | .logicNegate =>
        match r with
        | .bool b => .ok (.bool (!b)) env1
        | _ =>
          .err { message := "Cant negate type " ++ r.get_type.debugStr,
                 index := index, len := len } env1
      | .negate =>
        match r with
        | .number n => .ok (.number (-n)) env1
        | _ =>
          .err { message := "Cant negate type " ++ r.get_type.debugStr,
                 index := index, len := len } env1
    | .err e env1 => .err e env1
    | .panic m => .panic m
  | .grouping expr _ _, env => expr.eval env
  | .ternary condition left right index len, env =>
    match condition.eval env with
    | .ok c env1 =>
      match c with
      | .bool b => if b then left.eval env1 else right.eval env1
      | r =>
        .err { message :=
                 "The condition of a ternary operator must resolve to a boolean but was "
                   ++ r.get_type.debugStr,
               index := index, len := len } env1
    | .err e env1 => .err e env1
    | .panic m => .panic m
  | .binary left operator right index len, env =>
    match left.eval env with
    | .ok l env1 =>
      match right.eval env1 with
      | .ok r env2 =>
        if l.get_type ≠ r.get_type ∧ operator ≠ .comma then
          .err { message := "Cant operate on " ++ l.get_type.debugStr ++ " and "
                   ++ r.get_type.debugStr,
                 index := index, len := len } env2
        else
          match operator with
          | .sum =>
            match l.get_type with
            | .number =>
              match l.unwrap_number, r.unwrap_number with
              | some a, some b => .ok (.number (a + b)) env2
              | _, _ => .panic "LoxResult is not a number"
            | .str =>
              match l.unwrap_string, r.unwrap_string with
              | some a, some b => .ok (.str (a ++ b)) env2
              | _, _ => .panic "LoxResult is not a number"
            | n =>
              .err { message := "Can't perform Sum on " ++ n.debugStr,
                     index := index, len := len } env2
          | .substraction =>
            match l.unwrap_number, r.unwrap_number with
            | some a, some b => .ok (.number (a - b)) env2
            | _, _ => .panic "LoxResult is not a number"
          | .product =>
            match l.unwrap_number, r.unwrap_number with
            | some a, some b => .ok (.number (a * b)) env2
            | _, _ => .panic "LoxResult is not a number"
          | .division =>
            match l.unwrap_number, r.unwrap_number with
            | some a, some b => .ok (.number (a / b)) env2
            | _, _ => .panic "LoxResult is not a number"
          | .equals => .ok (.bool (l.loxEq r)) env2
          | .greaterThan => .ok (.bool (l.partialCmp r == .gt)) env2
          | .greaterThanEquals => .ok (.bool (l.partialCmp r != .lt)) env2
          | .lessThan => .ok (.bool (l.partialCmp r == .lt)) env2
          | .lessThanEquals => .ok (.bool (l.partialCmp r != .gt)) env2
          | .notEquals => .ok (.bool (!(l.loxEq r))) env2
          | .comma => .ok r env2
      | .err e env2 => .err e env2
      | .panic m => .panic m
    | .err e env1 => .err e env1
    | .panic m => .panic m

mutual

/-- Mirrors `Interpretable for Stmt::eval` in `interpreter.rs`.  The
`println!` side effect of `Print` happens at the process boundary and
is not observable in the state; the expression is still evaluated. -/
def Stmt.eval : Stmt → Environment → EvalOut LoxResult
  | .expression e, env => e.eval env
  | .print e, env =>
    match e.eval env with
    | .ok _ env1 => .ok .nil env1
    | .err er env1 => .err er env1
    | .panic m => .panic m
  | .var name init, env =>
    match init with
    | some e =>
      match e.eval env with
      | .ok r env1 => .ok .nil (env1.declare name (some r))
      | .err er env1 => .err er env1
      | .panic m => .panic m
    | none => .ok .nil (env.declare name none)
  | .block stmts, env =>
    match evalStmts stmts env.with_parent with
    | .ok _ child => .ok .nil child.parentD
    | .err er child => .err er child.parentD
    | .panic m => .panic m

/-- Sequential execution of statements against one environment,
mirroring both the loop in `Stmt::eval` for `Block` and the loop in
`execute` (`main.rs`). -/
def evalStmts : List Stmt → Environment → EvalOut Unit
  | [], env => .ok () env
  | s :: rest, env =>
    match s.eval env with
    | .ok _ env1 => evalStmts rest env1
    | .err er env1 => .err er env1
    | .panic m => .panic m

end

/-- Keyword kinds, mirroring `enum KeywordKind` in `lexer.rs` (prefixed
with `k` because several Rust names are Lean keywords). -/
inductive KeywordKind where
  | kAnd | kClass | kElse | kFalse | kFun | kFor | kIf | kNil
  | kOr | kPrint | kReturn | kSuper | kThis | kTrue | kVar | kWhile
deriving DecidableEq, Repr

/-- Literal token kinds, mirroring `enum LiteralKind`.  The number
payload is the value of `str.parse::<f64>()` before `.unwrap()`
(`Option`): the theorem for claim C10 shows the parse never fails, which
is what justifies the Rust unwrap.  The token itself stores the
unwrapped value via `Option.getD`. -/
inductive LiteralKind where
  | str (terminated : Bool) (value : String)
  | number (value : Rat)
deriving DecidableEq, Repr

/-- Token kinds, mirroring `enum TokenKind` in `lexer.rs`. -/
inductive TokenKind where
  | leftParen | rightParen | leftBrace | rightBrace | comma | dot
  | semicolon | colon | interrogation
  | minus | plus | slash | star
  | bang | assign
  | equals | notEquals | lessThan | greaterThan | lessThanEquals | greaterThanEquals
  | comment
  | identifier (s : String)
  | literal (k : LiteralKind)
  | keyword (k : KeywordKind)
  | whitespace
  | unknown
  | eof
deriving DecidableEq, Repr

/-- Tokens, mirroring `struct Token`: a kind, the offset where the
lexeme starts and its length, in the units the scanner counts
(characters; see the theorems for claim C3). -/
structure Token where
  kind : TokenKind
  index : Nat
  len : Nat
deriving DecidableEq, Repr

/-- Mirrors `is_digit` in `lexer.rs`. -/
def isDigit (c : Char) : Bool :=
  decide ('0' ≤ c ∧ c ≤ '9')

/-- Mirrors `is_whitespace` in `lexer.rs` (the `Pattern_White_Space`
set, hard-coded there). -/
def isWhitespace (c : Char) : Bool :=
  c == '\u0009' || c == '\u000A' || c == '\u000B' || c == '\u000C' ||
  c == '\u000D' || c == ' ' || c == '\u0085' || c == '‎' ||
  c == '‏' || c == ' ' || c == ' '

/-- Mirrors `is_ident_start` (`'_'` or `XID_Start`).  The external
`unicode_xid` table is modelled exactly on the ASCII range, where
`XID_Start` is precisely the letters; non-ASCII code points are treated
as non-identifier characters here, while the source accepts them (and
then misbehaves, see `tokenize`).  Theorems that quantify over source
strings therefore carry an ASCII-only hypothesis; only `nextToken`
results on inputs that never reach this classifier are used without
it. -/
def isIdentStart (c : Char) : Bool :=
  c == '_' || c.isAlpha

/-- Mirrors `is_ident_continue` (`XID_Continue`), modelled exactly on
the ASCII range, where `XID_Continue` is precisely the letters, digits
and underscore; non-ASCII continue characters are outside the model's
faithful domain (the source consumes them and then byte-slices
`&code[..consumed]` by a character count, which can panic). -/
def isIdentContinue (c : Char) : Bool :=
  c == '_' || c.isAlpha || isDigit c

/-- Result of `consume_while` in `lexer.rs`: how many characters were
consumed, whether the predicate (rather than end of input) stopped the
loop, and the consumed characters.  `rest` is the position of the
mutated `Peekable` iterator after the call. -/
structure ConsumeResult where
  consumed : Nat
  terminated : Bool
  value : List Char
  rest : List Char
deriving DecidableEq, Repr

/-- Mirrors `consume_while` in `lexer.rs`. -/
def consumeWhile (f : Char → Bool) : List Char → ConsumeResult
  | [] => ⟨0, false, [], []⟩
  | c :: cs =>
    if f c then
      let r := consumeWhile f cs
      ⟨r.consumed + 1, r.terminated, c :: r.value, r.rest⟩
    else ⟨0, true, [], c :: cs⟩

/-- Numeric value of a decimal digit string. -/
def natOfDigits (ds : List Char) : Nat :=
  ds.foldl (fun a c => 10 * a + (c.toNat - '0'.toNat)) 0

/-- Exact rational value `sgn * m * 10 ^ e` of a parsed decimal,
assembled from integer arithmetic (kernel-reducible). -/
def decToRat (sgn : Int) (m : Nat) (e : Int) : Rat :=
  if 0 ≤ e then mkRat (sgn * ((m * 10 ^ e.toNat : Nat) : Int)) 1
  else mkRat (sgn * (m : Int)) (10 ^ (-e).toNat)

/-- Exponent / end-of-input tail of Rust's `f64` decimal grammar: the
input after the mantissa must be empty or `e`/`E`, an optional sign and
a nonempty digit run.  `m` is the mantissa read as an integer and
`fplen` the number of fractional digits. -/
def parseExponentPart (sgn : Int) (m : Nat) (fplen : Nat) (r : List Char) : Option Rat :=
  match r with
  | [] => some (decToRat sgn m (-(fplen : Int)))
  | e :: r2 =>
    if e = 'e' ∨ e = 'E' then
      let sr : Int × List Char :=
        if r2.head? = some '+' then (1, r2.tail)
        else if r2.head? = some '-' then (-1, r2.tail)
        else (1, r2)
      let ed := sr.2.takeWhile isDigit
      if ed.isEmpty ∨ ¬(sr.2.dropWhile isDigit).isEmpty then none
      else some (decToRat sgn m (sr.1 * (natOfDigits ed : Int) - (fplen : Int)))
    else none

/-- Mantissa of Rust's `f64` decimal grammar: `digits [. digits]` or
`. digits` or `digits .`, at least one digit overall. -/
def parseDecimal (sgn : Int) (t : List Char) : Option Rat :=
  let ip := t.takeWhile isDigit
  let r1 := t.dropWhile isDigit
  match r1 with
  | '.' :: r2 =>
    let fp := r2.takeWhile isDigit
    let r3 := r2.dropWhile isDigit
    if ip.isEmpty ∧ fp.isEmpty then none
    else
      parseExponentPart sgn (natOfDigits ip * 10 ^ fp.length + natOfDigits fp) fp.length r3
  | _ =>
    if ip.isEmpty then none
    else parseExponentPart sgn (natOfDigits ip) 0 r1

/-- Modelled from Rust's `str::parse::<f64>` (`f64: FromStr`) decimal
grammar: an optional sign, a mantissa with at least one digit, an
optional exponent.  The `inf`/`infinity`/`nan` special forms are not
representable as `Rat` and are never produced by the scanner's
digit-shaped inputs, so they are omitted. -/
def rustParseF64 (s : List Char) : Option Rat :=
  if s.head? = some '+' then parseDecimal 1 s.tail
  else if s.head? = some '-' then parseDecimal (-1) s.tail
  else parseDecimal 1 s

/-- Number-lexeme accumulation of the digit branch of `next_token`
(`lexer.rs` lines 104-126): the maximal digit run after the first digit
`c`, then a fractional part only when a `.` is immediately followed by
another digit (the `foreview` two-character lookahead).  Returns the
accumulated `str_number` and the total `consumed` count. -/
def numberLexConsumed (c : Char) (cs : List Char) : List Char × Nat :=
  let r := consumeWhile isDigit cs
  if r.rest.head? = some '.' then
    if r.rest.tail.head?.elim false isDigit then
      let r2 := consumeWhile isDigit r.rest.tail
      (c :: r.value ++ '.' :: r2.value, 1 + r.consumed + (r2.consumed + 1))
    else (c :: r.value, 1 + r.consumed)
  else (c :: r.value, 1 + r.consumed)

/-- Mirrors `KeywordKind::try_from(&str)`. -/
def keywordOfString (s : String) : Option KeywordKind :=
  if s = "and" then some .kAnd
  else if s = "class" then some .kClass
  else if s = "else" then some .kElse
  else if s = "false" then some .kFalse
  else if s = "for" then some .kFor
  else if s = "fun" then some .kFun
  else if s = "if" then some .kIf
  else if s = "nil" then some .kNil
  else if s = "or" then some .kOr
  else if s = "print" then some .kPrint
  else if s = "return" then some .kReturn
  else if s = "super" then some .kSuper
  else if s = "this" then some .kThis
  else if s = "true" then some .kTrue
  else if s = "var" then some .kVar
  else if s = "while" then some .kWhile
  else none

/-- The `Some('/')` arm of `next_token`: a line comment when a second
`/` follows, otherwise division. -/
def slashToken (cs : List Char) (index : Nat) : Token :=
  if cs.head? = some '/' then
    let r := consumeWhile (fun x => x != '\u000A') cs
    ⟨.comment, index, 1 + r.consumed⟩
  else ⟨.slash, index, 1⟩

/-- The `Some('"')` arm of `next_token`: a string literal consuming
until the next `"` or end of input, recording termination. -/
def stringToken (cs : List Char) (index : Nat) : Token :=
  let r := consumeWhile (fun x => x != '"') cs
  ⟨.literal (.str r.terminated (String.mk r.value)), index,
    1 + r.consumed + (if r.terminated then 1 else 0)⟩

/-- The digit arm of `next_token`; `Option.getD` stands for the Rust
`.unwrap()` on the `f64` parse (claim C10 shows the parse never
fails). -/
def numberToken (c : Char) (cs : List Char) (index : Nat) : Token :=
  let nl := numberLexConsumed c cs
  ⟨.literal (.number ((rustParseF64 nl.1).getD 0)), index, nl.2⟩

/-- The whitespace arm of `next_token`. -/
def whitespaceToken (cs : List Char) (index : Nat) : Token :=
  let r := consumeWhile isWhitespace cs
  ⟨.whitespace, index, 1 + r.consumed⟩

/-- The identifier arm of `next_token`: the consumed text is matched
against the 16 reserved words. -/
def identToken (c : Char) (cs : List Char) (index : Nat) : Token :=
  let r := consumeWhile isIdentContinue cs
  let s := String.mk (c :: r.value)
  match keywordOfString s with
  | some k => ⟨.keyword k, index, 1 + r.consumed⟩
  | none => ⟨.identifier s, index, 1 + r.consumed⟩

/-- Mirrors `next_token` in `lexer.rs`.  The Rust `match` arms are
mutually disjoint, so they are rendered as a chain of `if`s in source
order, with the larger arms factored into the named helpers above.  The
scanner counts characters (the Rust code advances `consumed` once per
`char`). -/
def nextToken (code : List Char) (index : Nat) : Token :=
  match code with
  | [] => ⟨.eof, index, 1⟩
  | c :: cs =>
    if c = '(' then ⟨.leftParen, index, 1⟩
    else if c = ')' then ⟨.rightParen, index, 1⟩
    else if c = '{' then ⟨.leftBrace, index, 1⟩
    else if c = '}' then ⟨.rightBrace, index, 1⟩
    else if c = ',' then ⟨.comma, index, 1⟩
    else if c = '.' then ⟨.dot, index, 1⟩
    else if c = '-' then ⟨.minus, index, 1⟩
    else if c = '+' then ⟨.plus, index, 1⟩
    else if c = ';' then ⟨.semicolon, index, 1⟩
    else if c = ':' then ⟨.colon, index, 1⟩
    else if c = '?' then ⟨.interrogation, index, 1⟩
    else if c = '/' then slashToken cs index
    else if c = '*' then ⟨.star, index, 1⟩
    else if c = '"' then stringToken cs index
    else if c = '!' then
      if cs.head? = some '=' then ⟨.notEquals, index, 2⟩ else ⟨.bang, index, 1⟩
    else if c = '=' then
      if cs.head? = some '=' then ⟨.equals, index, 2⟩ else ⟨.assign, index, 1⟩
    else if c = '<' then
      if cs.head? = some '=' then ⟨.lessThanEquals, index, 2⟩ else ⟨.lessThan, index, 1⟩
    else if c = '>' then
      if cs.head? = some '=' then ⟨.greaterThanEquals, index, 2⟩ else ⟨.greaterThan, index, 1⟩
    else if isDigit c then numberToken c cs index
    else if isWhitespace c then whitespaceToken cs index
    else if isIdentStart c then identToken c cs index
    else ⟨.unknown, index, 1⟩

/-- The digit branch always consumes at least the starting digit. -/
theorem numberLexConsumed_pos (c : Char) (cs : List Char) :
    1 ≤ (numberLexConsumed c cs).2 := by
  simp only [numberLexConsumed]
  repeat' split
  all_goals simp_arith

/-- Every branch helper produces a positive length. -/
theorem slashToken_len_pos (cs : List Char) (i : Nat) : 1 ≤ (slashToken cs i).len := by
  simp only [slashToken]
  split
  all_goals simp_arith

/-- String tokens consume at least the opening quote. -/
theorem stringToken_len_pos (cs : List Char) (i : Nat) : 1 ≤ (stringToken cs i).len := by
  simp only [stringToken]
  simp_arith

/-- Number tokens consume at least one character. -/
theorem numberToken_len_pos (c : Char) (cs : List Char) (i : Nat) :
    1 ≤ (numberToken c cs i).len := by
  simp only [numberToken]
  exact numberLexConsumed_pos c cs

/-- Whitespace tokens consume at least one character. -/
theorem whitespaceToken_len_pos (cs : List Char) (i : Nat) :
    1 ≤ (whitespaceToken cs i).len := by
  simp only [whitespaceToken]
  simp_arith

/-- Identifier and keyword tokens consume at least one character. -/
theorem identToken_len_pos (c : Char) (cs : List Char) (i : Nat) :
    1 ≤ (identToken c cs i).len := by
  simp only [identToken]
  split
  all_goals simp_arith

/-- A conditional between two tokens of positive length has positive
length (case split helper for the branch chain of `nextToken`). -/
theorem ite_len_one (P : Prop) [Decidable P] (a b : Token) (ha : 1 ≤ a.len)
    (hb : 1 ≤ b.len) : 1 ≤ (if P then a else b).len := by
  by_cases h : P
  · simpa [h]
  · simpa [h]

/-- Every token of a nonempty input consumes at least one character. -/
theorem nextToken_len_pos (c : Char) (cs : List Char) (i : Nat) :
    1 ≤ (nextToken (c :: cs) i).len := by
  unfold nextToken
  dsimp only
  repeat' first
  | exact slashToken_len_pos cs i
  | exact stringToken_len_pos cs i
  | exact numberToken_len_pos c cs i
  | exact whitespaceToken_len_pos cs i
  | exact identToken_len_pos c cs i
  | apply ite_len_one
  | simp_arith

/-- Fueled loop of `tokenize` (structural recursion so that concrete
token streams reduce in the kernel).  Every iteration consumes at least
one character (`nextToken_len_pos`), so any fuel of at least
`code.length` makes the fuel pattern irrelevant.  The step drops
`t.len` CHARACTERS, where `lexer.rs` slices `&code[token.len..]` in
BYTES with that character count: the two coincide exactly on ASCII-only
sources (every prefix's character count equals its byte count), which
is why every theorem about whole token streams restricts to ASCII-only
input.  On sources with multi-byte characters the program's stream
diverges after the first token — the byte slice re-lexes from a shifted
position or panics at a non-boundary — behaviour this character-level
stream does not reproduce. -/
def tokenizeFuel : Nat → List Char → Nat → List Token
  | 0, _, _ => []
  | _ + 1, [], _ => []
  | fuel + 1, c :: cs, index =>
    let t := nextToken (c :: cs) index
    t :: tokenizeFuel fuel ((c :: cs).drop t.len) (index + t.len)

/-- Mirrors `tokenize` in `lexer.rs`: repeatedly scan a token at the
front, advance by its length, stop at `Eof` (that is, at empty input).
Faithful to the Rust iterator exactly on ASCII-only sources (see
`tokenizeFuel` for the byte-slice divergence on multi-byte input); the
FIRST scanned token is `nextToken` on the whole source and needs no
such restriction whenever its branch uses only the chars iterator. -/
def tokenize (code : List Char) (index : Nat) : List Token :=
  tokenizeFuel (code.length + 1) code index

/-- Structured syntax error, mirroring `struct LoxSyntaxError` in
`parser.rs`. -/
structure LoxSyntaxError where
  message : String
  index : Nat
  len : Nat
deriving DecidableEq, Repr

/-- Debug rendering of a `KeywordKind` (Rust derived `Debug`). -/
def keywordDebug : KeywordKind → String
  | .kAnd => "And"
  | .kClass => "Class"
  | .kElse => "Else"
  | .kFalse => "False"
  | .kFun => "Fun"
  | .kFor => "For"
  | .kIf => "If"
  | .kNil => "Nil"
  | .kOr => "Or"
  | .kPrint => "Print"
  | .kReturn => "Return"
  | .kSuper => "Super"
  | .kThis => "This"
  | .kTrue => "True"
  | .kVar => "Var"
  | .kWhile => "While"

/-- Debug rendering of a `LiteralKind` (Rust derived `Debug`).  The
number payload is printed from the `Rat` model; Rust would print the
`f64` (e.g. `1.0`) — no claim depends on this rendering. -/
def literalKindDebug : LiteralKind → String
  | .str t v =>
    "Str \x7b terminated: " ++ (if t then "true" else "false") ++ ", value: \"" ++ v ++ "\" \x7d"
  | .number v => "Number(" ++ toString v ++ ")"

/-- Debug rendering of a `TokenKind` (Rust derived `Debug`), used in
parser error messages via `{:?}`. -/
def tokenKindDebug : TokenKind → String
  | .leftParen => "LeftParen"
  | .rightParen => "RightParen"
  | .leftBrace => "LeftBrace"
  | .rightBrace => "RightBrace"
  | .comma => "Comma"
  | .dot => "Dot"
  | .semicolon => "Semicolon"
  | .colon => "Colon"
  | .interrogation => "Interrogation"
  | .minus => "Minus"
  | .plus => "Plus"
  | .slash => "Slash"
  | .star => "Star"
  | .bang => "Bang"
  | .assign => "Assign"
  | .equals => "Equals"
  | .notEquals => "NotEquals"
  | .lessThan => "LessThan"
  | .greaterThan => "GreaterThan"
  | .lessThanEquals => "LessThanEquals"
  | .greaterThanEquals => "GreaterThanEquals"
  | .comment => "Comment"
  | .identifier s => "Identifier(\"" ++ s ++ "\")"
  | .literal k => "Literal(" ++ literalKindDebug k ++ ")"
  | .keyword k => "Keyword(" ++ keywordDebug k ++ ")"
  | .whitespace => "Whitespace"
  | .unknown => "Unknown"
  | .eof => "Eof"

/-- Mirrors `TryFrom<Token> for BinOp` in `parser.rs`. -/
def binOpOfToken (t : Token) : Except String BinOp :=
  match t.kind with
  | .equals => .ok .equals
  | .notEquals => .ok .notEquals
  | .greaterThan => .ok .greaterThan
  | .greaterThanEquals => .ok .greaterThanEquals
  | .lessThan => .ok .lessThan
  | .lessThanEquals => .ok .lessThanEquals
  | .minus => .ok .substraction
  | .plus => .ok .sum
  | .star => .ok .product
  | .slash => .ok .division
  | .comma => .ok .comma
  | tk => .error (tokenKindDebug tk ++ " is not a valid binary operator")

/-- The `.try_into().unwrap()` used in the parser loops; the unwrap is
guarded by a preceding `matches_any` check, so the default is dead
code. -/
def binOpOfTokenD (t : Token) : BinOp :=
  (binOpOfToken t).toOption.getD .comma

/-- Mirrors `TryFrom<Token> for UnaryOp` in `parser.rs`. -/
def unaryOpOfToken (t : Token) : Except String UnaryOp :=
  match t.kind with
  | .minus => .ok .negate
  | .bang => .ok .logicNegate
  | tk => .error (tokenKindDebug tk ++ " is not a valid unary operation")

/-- The `.try_into().unwrap()` of the unary branch, guarded by
`matches_any`. -/
def unaryOpOfTokenD (t : Token) : UnaryOp :=
  (unaryOpOfToken t).toOption.getD .negate

/-- Mirrors `matches_any` in `parser.rs`: the cloned iterator is peeked
without ever advancing, so the check compares the first remaining token
against each candidate kind. -/
def matchesAny (ts : List Token) (kinds : List TokenKind) : Bool :=
  match ts with
  | t :: _ => kinds.any (fun k => t.kind == k)
  | [] => false

/-- Fuel-exhaustion marker of the embedded parser.  The fuel argument
is an artifact of the embedding (Rust's recursion terminates on the
token stream); `parse` below supplies fuel that concrete runs never
exhaust, and no theorem relies on this value. -/
def fuelError : LoxSyntaxError := ⟨"parser fuel exhausted", 0, 0⟩

mutual

/-- Mirrors `statement` in `parser.rs`. -/
def statementP : Nat → List Token → Except LoxSyntaxError (Stmt × List Token)
  | 0, _ => .error fuelError
  | f + 1, ts =>
    match ts with
    | t :: rest =>
      if t.kind = .keyword .kPrint then printStatementP f rest
      else expressionStatementP f ts
    | [] => expressionStatementP f ts

/-- Mirrors `print_statement` in `parser.rs`. -/
def printStatementP : Nat → List Token → Except LoxSyntaxError (Stmt × List Token)
  | 0, _ => .error fuelError
  | f + 1, ts =>
    match expressionP f ts with
    | .ok (expr, ts1) =>
      match ts1 with
      | t :: rest =>
        if t.kind = .semicolon then .ok (.print expr, rest)
        else .error ⟨"Expected ';' after value.", expr.index + expr.len, 0⟩
      | [] => .error ⟨"Expected ';' after value.", expr.index + expr.len, 0⟩
    | .error e => .error e

/-- Mirrors `expression_statement` in `parser.rs`. -/
def expressionStatementP : Nat → List Token → Except LoxSyntaxError (Stmt × List Token)
  | 0, _ => .error fuelError
  | f + 1, ts =>
    match expressionP f ts with
    | .ok (expr, ts1) =>
      match ts1 with
      | t :: rest =>
        if t.kind = .semicolon then .ok (.expression expr, rest)
        else .error ⟨"Expected ';' after value.", expr.index + expr.len, 0⟩
      | [] => .error ⟨"Expected ';' after value.", expr.index + expr.len, 0⟩
    | .error e => .error e

/-- Mirrors `expression` in `parser.rs`. -/
def expressionP : Nat → List Token → Except LoxSyntaxError (Expr × List Token)
  | 0, _ => .error fuelError
  | f + 1, ts => ternaryP f ts

/-- Mirrors `ternary` in `parser.rs`: both branches recurse into
`ternary`, which makes the operator right-associative. -/
def ternaryP : Nat → List Token → Except LoxSyntaxError (Expr × List Token)
  | 0, _ => .error fuelError
  | f + 1, ts =>
    match commaP f ts with
    | .ok (expr, ts1) =>
      match ts1 with
      | t :: rest =>
        if t.kind = .interrogation then
          match ternaryP f rest with
          | .ok (left, ts2) =>
            match ts2 with
            | t2 :: rest2 =>
              if t2.kind = .colon then
                match ternaryP f rest2 with
                | .ok (right, ts3) =>
                  .ok (.ternary expr left right expr.index
                         (right.index + right.len - expr.index), ts3)
                | .error e => .error e
              else
                .error ⟨"Ternary operation missing one branch, expected colon instead",
                        t2.index, t2.len⟩
            | [] =>
              .error ⟨"Ternary operation missing one branch, expected colon",
                      left.index, left.len⟩
          | .error e => .error e
        else .ok (expr, ts1)
      | [] => .ok (expr, ts1)
    | .error e => .error e

/-- Mirrors `comma` in `parser.rs`. -/
def commaP : Nat → List Token → Except LoxSyntaxError (Expr × List Token)
  | 0, _ => .error fuelError
  | f + 1, ts =>
    match equalityP f ts with
    | .ok (expr, ts1) => commaLoopP f expr ts1
    | .error e => .error e

/-- The `while matches_any` left-fold of `comma`. -/
def commaLoopP : Nat → Expr → List Token → Except LoxSyntaxError (Expr × List Token)
  | 0, _, _ => .error fuelError
  | f + 1, expr, ts =>
    if matchesAny ts [.comma] then
      match ts with
      | t :: rest =>
        match equalityP f rest with
        | .ok (right, ts2) =>
          commaLoopP f
            (.binary expr (binOpOfTokenD t) right expr.index
              (right.index + right.len - expr.index)) ts2
        | .error e => .error e
      | [] => .ok (expr, ts)
    else .ok (expr, ts)

/-- Mirrors `equality` in `parser.rs`. -/
def equalityP : Nat → List Token → Except LoxSyntaxError (Expr × List Token)
  | 0, _ => .error fuelError
  | f + 1, ts =>
    match comparisonP f ts with
    | .ok (expr, ts1) => equalityLoopP f expr ts1
    | .error e => .error e

/-- The `while matches_any` left-fold of `equality`. -/
def equalityLoopP : Nat → Expr → List Token → Except LoxSyntaxError (Expr × List Token)
  | 0, _, _ => .error fuelError
  | f + 1, expr, ts =>
    if matchesAny ts [.notEquals, .equals] then
      match ts with
      | t :: rest =>
        match comparisonP f rest with
        | .ok (right, ts2) =>
          equalityLoopP f
            (.binary expr (binOpOfTokenD t) right expr.index
              (right.index + right.len - expr.index)) ts2
        | .error e => .error e
      | [] => .ok (expr, ts)
    else .ok (expr, ts)

/-- Mirrors `comparison` in `parser.rs`. -/
def comparisonP : Nat → List Token → Except LoxSyntaxError (Expr × List Token)
  | 0, _ => .error fuelError
  | f + 1, ts =>
    match termP f ts with
    | .ok (expr, ts1) => comparisonLoopP f expr ts1
    | .error e => .error e

/-- The `while matches_any` left-fold of `comparison`. -/
def comparisonLoopP : Nat → Expr → List Token → Except LoxSyntaxError (Expr × List Token)
  | 0, _, _ => .error fuelError
  | f + 1, expr, ts =>
    if matchesAny ts [.greaterThan, .greaterThanEquals, .lessThan, .lessThanEquals] then
      match ts with
      | t :: rest =>
        match termP f rest with
        | .ok (right, ts2) =>
          comparisonLoopP f
            (.binary expr (binOpOfTokenD t) right expr.index
              (right.index + right.len - expr.index)) ts2
        | .error e => .error e
      | [] => .ok (expr, ts)
    else .ok (expr, ts)

/-- Mirrors `term` in `parser.rs`. -/
def termP : Nat → List Token → Except LoxSyntaxError (Expr × List Token)
  | 0, _ => .error fuelError
  | f + 1, ts =>
    match factorP f ts with
    | .ok (expr, ts1) => termLoopP f expr ts1
    | .error e => .error e

/-- The `while matches_any` left-fold of `term`. -/
def termLoopP : Nat → Expr → List Token → Except LoxSyntaxError (Expr × List Token)
  | 0, _, _ => .error fuelError
  | f + 1, expr, ts =>
    if matchesAny ts [.minus, .plus] then
      match ts with
      | t :: rest =>
        match factorP f rest with
        | .ok (right, ts2) =>
          termLoopP f
            (.binary expr (binOpOfTokenD t) right expr.index
              (right.index + right.len - expr.index)) ts2
        | .error e => .error e
      | [] => .ok (expr, ts)
    else .ok (expr, ts)

/-- Mirrors `factor` in `parser.rs`. -/
def factorP : Nat → List Token → Except LoxSyntaxError (Expr × List Token)
  | 0, _ => .error fuelError
  | f + 1, ts =>
    match unaryP f ts with
    | .ok (expr, ts1) => factorLoopP f expr ts1
    | .error e => .error e

/-- The `while matches_any` left-fold of `factor`. -/
def factorLoopP : Nat → Expr → List Token → Except LoxSyntaxError (Expr × List Token)
  | 0, _, _ => .error fuelError
  | f + 1, expr, ts =>
    if matchesAny ts [.slash, .star] then
      match ts with
      | t :: rest =>
        match unaryP f rest with
        | .ok (right, ts2) =>
          factorLoopP f
            (.binary expr (binOpOfTokenD t) right expr.index
              (right.index + right.len - expr.index)) ts2
        | .error e => .error e
      | [] => .ok (expr, ts)
    else .ok (expr, ts)

/-- Mirrors `unary` in `parser.rs`. -/
def unaryP : Nat → List Token → Except LoxSyntaxError (Expr × List Token)
  | 0, _ => .error fuelError
  | f + 1, ts =>
    if matchesAny ts [.bang, .minus] then
      match ts with
      | t :: rest =>
        match unaryP f rest with
        | .ok (right, ts2) =>
          .ok (.unary (unaryOpOfTokenD t) right t.index
                 (right.index + right.len - t.index), ts2)
        | .error e => .error e
      | [] => primaryP f ts
    else primaryP f ts

/-- Mirrors `primary` in `parser.rs`.  The repository's parser accepts
only literals, `true`/`false`/`nil`, and parenthesised expressions here:
identifiers (and every other token kind) fall to the error arm. -/
def primaryP : Nat → List Token → Except LoxSyntaxError (Expr × List Token)
  | 0, _ => .error fuelError
  | f + 1, ts =>
    match ts with
    | t :: rest =>
      match t.kind with
      | .keyword .kTrue => .ok (.literal .ltrue t.index t.len, rest)
      | .keyword .kFalse => .ok (.literal .lfalse t.index t.len, rest)
      | .keyword .kNil => .ok (.literal .lnil t.index t.len, rest)
      | .literal (.number n) => .ok (.literal (.number n) t.index t.len, rest)
      | .literal (.str _ value) => .ok (.literal (.str value) t.index t.len, rest)
      | .leftParen =>
        match expressionP f rest with
        | .ok (expr, ts2) =>
          match ts2 with
          | t2 :: rest2 =>
            if t2.kind = .rightParen then
              .ok (.grouping expr expr.index expr.len, rest2)
            else
              .error ⟨"The token " ++ tokenKindDebug t2.kind
                        ++ " was not expected, a ')' was expected", t2.index, t2.len⟩
          | [] => .error ⟨"Expected ')' after grouped expression", expr.index, expr.len⟩
        | .error e => .error e
      | tk =>
        .error ⟨"Token \"" ++ tokenKindDebug tk ++ "\" does not match a valid expression",
                t.index, t.len⟩
    | [] => .error ⟨"The expression is does not have a leaf node", 0, 0⟩

/-- Mirrors the `while tokens.peek().is_some()` loop of `parse` in
`parser.rs`. -/
def parseLoopP : Nat → List Token → Except LoxSyntaxError (List Stmt)
  | 0, _ => .error fuelError
  | f + 1, ts =>
    match ts with
    | [] => .ok []
    | _ :: _ =>
      match statementP f ts with
      | .ok (s, ts1) =>
        match parseLoopP f ts1 with
        | .ok rest => .ok (s :: rest)
        | .error e => .error e
      | .error e => .error e

end

/-- Mirrors `parse` in `parser.rs`, supplying fuel that bounds the
recursion depth of any run on the given tokens. -/
def parse (ts : List Token) : Except LoxSyntaxError (List Stmt) :=
  parseLoopP (100 * ts.length + 100) ts

/-- The core pipeline of `execute` in `main.rs`: tokenize, filter out
whitespace tokens (and only those), parse. -/
def executeParse (code : List Char) : Except LoxSyntaxError (List Stmt) :=
  parse ((tokenize code 0).filter (fun t => t.kind != TokenKind.whitespace))

/-- Full `execute` (`main.rs`): parse the source and run the statements
against the given environment. -/
def execute (code : List Char) (env : Environment) :
    Except LoxSyntaxError (EvalOut Unit) :=
  match executeParse code with
  | .ok stmts => .ok (evalStmts stmts env)
  | .error e => .error e

/-- Expression-level pipeline used by the parser's own test module:
tokenize, filter whitespace, parse a single expression, evaluate it in
an empty global environment. -/
def evalExprSource (code : List Char) : Option (EvalOut LoxResult) :=
  let ts := (tokenize code 0).filter (fun t => t.kind != TokenKind.whitespace)
  match expressionP (100 * ts.length + 100) ts with
  | .ok (e, _) => some (e.eval Environment.new)
  | .error _ => none

/-- Offsets of a token list are chained starting at `i`: each token's
recorded offset is the running position, so every next token's offset
equals the previous token's offset plus the previous token's length. -/
def chainedFrom : Nat → List Token → Prop
  | _, [] => True
  | i, t :: ts => t.index = i ∧ chainedFrom (i + t.len) ts

/-- UTF-8 byte count of a character (used to compare the scanner's
character counts with byte counts). -/
def charUtf8Size (c : Char) : Nat :=
  if c.val < 0x80 then 1
  else if c.val < 0x800 then 2
  else if c.val < 0x10000 then 3
  else 4

/-- UTF-8 byte count of a character list. -/
def utf8Len (l : List Char) : Nat :=
  l.foldr (fun c a => charUtf8Size c + a) 0

/-- Modelled from the spec: the number lexeme is "a maximal digit run,
then optionally a `.` followed by at least one more digit (lookahead of
two characters required — a trailing `.` not followed by a digit is NOT
consumed)", following the starting digit `c`. -/
def specNumberLexeme (c : Char) (cs : List Char) : List Char :=
  let ds := cs.takeWhile isDigit
  let rest := cs.dropWhile isDigit
  if rest.head? = some '.' ∧ rest.tail.head?.elim false isDigit then
    c :: ds ++ '.' :: rest.tail.takeWhile isDigit
  else c :: ds

/-- C1: for every binary expression whose operator is not the comma
operator (including `==` and `!=`), if the two operands evaluate to
values of different runtime types, evaluation returns a runtime error
whose message names both types and whose span is the binary node's. -/
theorem binary_type_mismatch_errors (el er : Expr) (op : BinOp) (i n : Nat)
    (env env1 env2 : Environment) (lv rv : LoxResult)
    (hop : op ≠ BinOp.comma)
    (hl : el.eval env = .ok lv env1)
    (hr : er.eval env1 = .ok rv env2)
    (hty : lv.get_type ≠ rv.get_type) :
    (Expr.binary el op er i n).eval env =
      .err ⟨"Cant operate on " ++ lv.get_type.debugStr ++ " and " ++ rv.get_type.debugStr,
            i, n⟩ env2 := by
  simp only [Expr.eval, hl]
  simp only [hr]
  simp only [if_pos (And.intro hty hop)]

/-- C1 witness: evaluating `"1" == 1` is a RuntimeError naming `Str`
and `Number`, not `Bool(false)`. -/
theorem binary_type_mismatch_errors_witness :
    (Expr.binary (.literal (.str "1") 0 3) .equals (.literal (.number 1) 7 1) 0 8).eval
        Environment.new
      = .err ⟨"Cant operate on Str and Number", 0, 8⟩ Environment.new :=
  binary_type_mismatch_errors (.literal (.str "1") 0 3) (.literal (.number 1) 7 1)
    .equals 0 8 Environment.new Environment.new Environment.new
    (.str "1") (.number 1) (by decide) rfl rfl (by decide)

/-- C2: evaluating `"a" - "b"` (same-typed, non-Number operands of a
`-`/`*`/`/` binary) passes the type-mismatch check and reaches
`LoxResult::unwrap_number`, which panics — the process aborts instead of
returning a structured runtime error.  The same holds for `*` on two
Booleans. -/
theorem subtraction_on_strings_panics :
    (Expr.binary (.literal (.str "a") 0 3) .substraction (.literal (.str "b") 6 3) 0 9).eval
        Environment.new = .panic "LoxResult is not a number"
    ∧ LoxResult.unwrap_number (.str "a") = none
    ∧ (Expr.binary (.literal .ltrue 0 4) .product (.literal .lfalse 7 5) 0 12).eval
        Environment.new = .panic "LoxResult is not a number" :=
  ⟨rfl, rfl, rfl⟩

/-- C6 counterexample: `x = (y = 2)` with `y` declared and `x` never
declared returns a RuntimeError, but the evaluation of the right-hand
side has already mutated `y` — the environment chain is NOT left
unchanged. -/
theorem assign_undeclared_mutation_cx :
    (Expr.assign "x" (.assign "y" (.literal (.number 2) 8 1) 4 5) 0 9).eval
        (Environment.mk [("y", some (.number 1))] none)
      = .err ⟨"Variable \"x\" was not initialized", 0, 9⟩
          (Environment.mk [("y", some (.number 2))] none)
    ∧ (Environment.mk [("y", some (.number 2))] none).get "y"
        ≠ (Environment.mk [("y", some (.number 1))] none).get "y" :=
  ⟨rfl, by decide⟩

/-- C6 (amended): evaluating `x = v` where `x` was never declared in
any scope returns a RuntimeError naming `x`; when evaluating `v` itself
leaves the environment unchanged (for example, `v` is a literal), every
scope in the chain is left unchanged. -/
theorem assign_undeclared_errors (x : String) (v : Expr) (i n : Nat)
    (env : Environment) (r : LoxResult)
    (hv : v.eval env = .ok r env) (hx : env.get x = none) :
    (Expr.assign x v i n).eval env =
      .err ⟨"Variable \"" ++ x ++ "\" was not initialized", i, n⟩ env := by
  simp only [Expr.eval, hv]
  simp only [hx]

/-- C6 witness: `x = 1` in the empty global environment errors and
leaves the environment empty. -/
theorem assign_undeclared_errors_witness :
    (Expr.assign "x" (.literal (.number 1) 4 1) 0 5).eval Environment.new =
      .err ⟨"Variable \"x\" was not initialized", 0, 5⟩ Environment.new :=
  assign_undeclared_errors "x" (.literal (.number 1) 4 1) 0 5 Environment.new
    (.number 1) rfl rfl

/-- C7: running `var x = 1; var y = 0; { var x = 2; y = x; var z = 5; }`
from the empty global environment: the inner read of `x` (assigned into
the outer `y`) sees 2, after the block `x` reads 1, and the
block-local `z` is not visible afterwards; a block's child scope starts
empty with the active environment as parent. -/
theorem block_scoping_behaviour :
    evalStmts
      [ .var "x" (some (.literal (.number 1) 8 1)),
        .var "y" (some (.literal (.number 0) 19 1)),
        .block
          [ .var "x" (some (.literal (.number 2) 32 1)),
            .expression (.assign "y" (.var "x" 39 1) 35 5),
            .var "z" (some (.literal (.number 5) 50 1)) ] ]
      Environment.new
      = .ok () (Environment.mk [("x", some (.number 1)), ("y", some (.number 2))] none)
    ∧ (Environment.mk [("x", some (.number 1)), ("y", some (.number 2))] none).get "x"
        = some (some (.number 1))
    ∧ (Environment.mk [("x", some (.number 1)), ("y", some (.number 2))] none).get "y"
        = some (some (.number 2))
    ∧ (Environment.mk [("x", some (.number 1)), ("y", some (.number 2))] none).get "z"
        = none
    ∧ (∀ env : Environment, env.with_parent.scope = [] ∧ env.with_parent.parent = some env) :=
  ⟨rfl, rfl, rfl, rfl, fun _ => ⟨rfl, rfl⟩⟩

/-- C9 counterexample: the runtime error for the undeclared variable
`x` spanning (5, 3) carries 8 in its length field — the node's end
position, not the node's length 3. -/
theorem var_error_len_cx :
    (Expr.var "x" 5 3).eval Environment.new =
      .err ⟨"The variable was not initialized before usage", 5, 8⟩ Environment.new
    ∧ (8 : Nat) ≠ (Expr.var "x" 5 3).len :=
  ⟨rfl, by decide⟩

/-- C9 (amended): every undeclared-variable runtime error carries the
node's offset, but its `len` field holds `index + len` — the node's end
position — instead of the node's length. -/
theorem var_undeclared_error_span (name : String) (i n : Nat) (env : Environment)
    (h : env.get name = none) :
    (Expr.var name i n).eval env =
      .err ⟨"The variable was not initialized before usage", i, i + n⟩ env := by
  simp only [Expr.eval, h]

/-- C9 witness: the undeclared-variable error at node (2, 4) carries
offset 2 and end position 6. -/
theorem var_undeclared_error_span_witness :
    (Expr.var "y" 2 4).eval Environment.new =
      .err ⟨"The variable was not initialized before usage", 2, 6⟩ Environment.new :=
  var_undeclared_error_span "y" 2 4 Environment.new rfl

/-- Every scanner branch records the offset it was given. -/
theorem slashToken_index (cs : List Char) (i : Nat) : (slashToken cs i).index = i := by
  simp only [slashToken]
  split <;> rfl

/-- String tokens record the offset they were given. -/
theorem stringToken_index (cs : List Char) (i : Nat) : (stringToken cs i).index = i := rfl

/-- Number tokens record the offset they were given. -/
theorem numberToken_index (c : Char) (cs : List Char) (i : Nat) :
    (numberToken c cs i).index = i := rfl

/-- Whitespace tokens record the offset they were given. -/
theorem whitespaceToken_index (cs : List Char) (i : Nat) : (whitespaceToken cs i).index = i := rfl

/-- Identifier and keyword tokens record the offset they were given. -/
theorem identToken_index (c : Char) (cs : List Char) (i : Nat) :
    (identToken c cs i).index = i := by
  simp only [identToken]
  split <;> rfl

/-- Case-split helper: a conditional between two tokens recording
offset `i` records offset `i`. -/
theorem ite_index_one (P : Prop) [Decidable P] (a b : Token) (i : Nat)
    (ha : a.index = i) (hb : b.index = i) : (if P then a else b).index = i := by
  by_cases h : P
  · simpa [h]
  · simpa [h]

/-- The scanner stamps each token with exactly the offset it was
given. -/
theorem nextToken_index (code : List Char) (i : Nat) : (nextToken code i).index = i := by
  cases code with
  | nil => rfl
  | cons c cs =>
    unfold nextToken
    dsimp only
    repeat' first
    | exact slashToken_index cs i
    | exact stringToken_index cs i
    | exact numberToken_index c cs i
    | exact whitespaceToken_index cs i
    | exact identToken_index c cs i
    | apply ite_index_one

/-- The fueled scanner loop produces a chained token list from any
starting offset. -/
theorem tokenizeFuel_chained (n : Nat) :
    ∀ (code : List Char) (i : Nat), chainedFrom i (tokenizeFuel n code i) := by
  induction n with
  | zero => intro code i; simp [tokenizeFuel, chainedFrom]
  | succ n ih =>
    intro code i
    cases code with
    | nil => simp [tokenizeFuel, chainedFrom]
    | cons c cs =>
      simp only [tokenizeFuel, chainedFrom]
      exact ⟨nextToken_index (c :: cs) i, ih _ _⟩

/-- A list of one-byte characters has as many bytes as characters. -/
theorem utf8Len_eq_length_of_ascii (l : List Char)
    (h : ∀ c ∈ l, charUtf8Size c = 1) : utf8Len l = l.length := by
  induction l with
  | nil => rfl
  | cons c t ih =>
    have ht := ih (fun x hx => h x (List.mem_cons_of_mem c hx))
    simp only [utf8Len, List.foldr_cons, List.length_cons] at ht ⊢
    rw [h c (List.mem_cons_self c t)]
    omega

/-- C3 (amended): on an ASCII-only source — where the scanner's
character counts provably coincide with byte counts, both for the whole
source and for every lexeme (any sublist), so the model advances
exactly as the Rust byte slice does — every token stream the scanner
produces is chained: each token's recorded offset is the running
position counter, so each next token's offset equals the previous
token's offset plus its recorded length, and those offsets and lengths
are byte-accurate there.  Multi-byte sources are excluded: the recorded
length is a character count, not a byte count (see the counterexample),
and the program's byte-based slicing derails its stream after the first
token. -/
theorem tokenize_offsets_chained_ascii (code : List Char) (i : Nat)
    (h : ∀ c ∈ code, charUtf8Size c = 1) :
    chainedFrom i (tokenize code i)
    ∧ ∀ l : List Char, l.Sublist code → utf8Len l = l.length := by
  refine ⟨tokenizeFuel_chained (code.length + 1) code i, ?_⟩
  intro l hl
  exact utf8Len_eq_length_of_ascii l (fun c hc => h c (hl.subset hc))

/-- C3 witness: the ASCII source `1 + 2;` has chained token offsets and
its byte length equals its character length. -/
theorem tokenize_offsets_chained_ascii_witness :
    chainedFrom 0 (tokenize "1 + 2;".toList 0)
    ∧ utf8Len "1 + 2;".toList = "1 + 2;".toList.length :=
  ⟨(tokenize_offsets_chained_ascii "1 + 2;".toList 0 (by decide)).1,
   (tokenize_offsets_chained_ascii "1 + 2;".toList 0 (by decide)).2
     "1 + 2;".toList (List.Sublist.refl _)⟩

/-- C3 counterexample: the first token scanned from the
three-character source `"é"`.  It is computed by `nextToken`, whose
string-literal branch walks the chars iterator only (no byte slicing
happens before the token is built), so this token is exactly the Rust
program's first token on every input.  Its recorded length is 3 — the
character count — while its lexeme (the whole source) occupies 4 bytes,
so the recorded length is not a byte length. -/
theorem first_token_len_not_bytes_cx :
    nextToken ['"', 'é', '"'] 0 = ⟨.literal (.str true "é"), 0, 3⟩
    ∧ utf8Len ['"', 'é', '"'] = 4
    ∧ (3 : Nat) ≠ 4 :=
  ⟨by decide, by decide, by decide⟩

/-- C4 counterexample: the core entry point's filter keeps comment
tokens (only whitespace is dropped), and inserting the line comment
`//c` between the two statements of `1;\n2;` turns a successful parse
into a syntax error at the comment token — not the same statement
sequence. -/
theorem comment_not_filtered_cx :
    ((tokenize "1;//c\n2;".toList 0).filter
        (fun t => t.kind != TokenKind.whitespace)).any
        (fun t => t.kind == TokenKind.comment) = true
    ∧ executeParse "1;\n2;".toList =
        .ok [.expression (.literal (.number 1) 0 1), .expression (.literal (.number 2) 3 1)]
    ∧ executeParse "1;//c\n2;".toList =
        .error ⟨"Token \"Comment\" does not match a valid expression", 2, 3⟩ :=
  ⟨by decide, rfl, rfl⟩

/-- C4 (amended): the core entry point filters out only whitespace
tokens; a comment token anywhere in the stream survives the filter and
reaches the parser, so inserting a line comment between two statements
yields a syntax error at the comment token instead of the same
statement sequence (witnessed concretely by the conjuncts on `1;\n2;`
versus `1;//c\n2;`). -/
theorem execute_filters_only_whitespace (pre post : List Token) (t : Token)
    (h : t.kind = TokenKind.comment) :
    ((pre ++ t :: post).filter (fun x => x.kind != TokenKind.whitespace)) =
      pre.filter (fun x => x.kind != TokenKind.whitespace) ++
        t :: post.filter (fun x => x.kind != TokenKind.whitespace)
    ∧ executeParse "1;\n2;".toList =
        .ok [.expression (.literal (.number 1) 0 1), .expression (.literal (.number 2) 3 1)]
    ∧ executeParse "1;//c\n2;".toList =
        .error ⟨"Token \"Comment\" does not match a valid expression", 2, 3⟩ := by
  refine ⟨?_, rfl, rfl⟩
  simp [List.filter_append, List.filter_cons, h]

/-- C4 witness: a comment token between a number and a semicolon
survives the entry point's filter. -/
theorem execute_filters_only_whitespace_witness :
    ((([⟨.literal (.number 1), 0, 1⟩] : List Token) ++ (⟨.comment, 1, 3⟩ : Token) ::
        ([⟨.semicolon, 4, 1⟩] : List Token)).filter
          (fun x => x.kind != TokenKind.whitespace)) =
      ([⟨.literal (.number 1), 0, 1⟩] : List Token).filter
          (fun x => x.kind != TokenKind.whitespace) ++
        (⟨.comment, 1, 3⟩ : Token) ::
          ([⟨.semicolon, 4, 1⟩] : List Token).filter
            (fun x => x.kind != TokenKind.whitespace) :=
  (execute_filters_only_whitespace [⟨.literal (.number 1), 0, 1⟩]
    [⟨.semicolon, 4, 1⟩] ⟨.comment, 1, 3⟩ rfl).1

/-- C5 counterexample: `var x = 1;` does not parse to a
Variable-declaration statement — the parser rejects the `var` keyword
with a syntax error. -/
theorem var_statement_rejected_cx :
    executeParse "var x = 1;".toList =
      .error ⟨"Token \"Keyword(Var)\" does not match a valid expression", 0, 3⟩ := rfl

/-- C5 (amended): the parser does NOT accept the variable-supporting
grammar: `var` declarations, `{ }` blocks, bare identifiers in primary
position and assignments are all rejected with a syntax error at the
offending token (the Variable/Assign/Block constructs exist only in the
AST and evaluator of this repository). -/
theorem parser_rejects_variable_grammar :
    executeParse "var x = 1;".toList =
      .error ⟨"Token \"Keyword(Var)\" does not match a valid expression", 0, 3⟩
    ∧ executeParse "{ }".toList =
        .error ⟨"Token \"LeftBrace\" does not match a valid expression", 0, 1⟩
    ∧ executeParse "x;".toList =
        .error ⟨"Token \"Identifier(\"x\")\" does not match a valid expression", 0, 1⟩
    ∧ executeParse "x = 1;".toList =
        .error ⟨"Token \"Identifier(\"x\")\" does not match a valid expression", 0, 1⟩ :=
  ⟨rfl, rfl, rfl, rfl⟩

/-- C8: ternary evaluation requires a Boolean condition (else a runtime
error naming the actual type); when the condition is Boolean, exactly
the taken branch is evaluated and returned (the conclusion does not
depend on the untaken branch at all); and the operator is
right-associative, so the full pipeline evaluates
`true ? 1 : 2 ? 3 : 4` to Number 1 — note `2 ? 3 : 4` would be a
runtime error if it were ever evaluated — and `false ? 1 : true ? 3 : 4`
to Number 3. -/
theorem ternary_evaluation_semantics :
    (∀ (c l r : Expr) (i n : Nat) (env env1 : Environment),
        c.eval env = .ok (.bool true) env1 →
        (Expr.ternary c l r i n).eval env = l.eval env1)
    ∧ (∀ (c l r : Expr) (i n : Nat) (env env1 : Environment),
        c.eval env = .ok (.bool false) env1 →
        (Expr.ternary c l r i n).eval env = r.eval env1)
    ∧ (∀ (c l r : Expr) (i n : Nat) (env env1 : Environment) (v : LoxResult),
        c.eval env = .ok v env1 → (∀ b, v ≠ .bool b) →
        (Expr.ternary c l r i n).eval env =
          .err ⟨"The condition of a ternary operator must resolve to a boolean but was "
                  ++ v.get_type.debugStr, i, n⟩ env1)
    ∧ evalExprSource "true ? 1 : 2 ? 3 : 4".toList =
        some (.ok (.number 1) Environment.new)
    ∧ evalExprSource "false ? 1 : true ? 3 : 4".toList =
        some (.ok (.number 3) Environment.new) := by
  refine ⟨?_, ?_, ?_, rfl, rfl⟩
  · intro c l r i n env env1 hc
    simp [Expr.eval, hc]
  · intro c l r i n env env1 hc
    simp [Expr.eval, hc]
  · intro c l r i n env env1 v hc hv
    cases v with
    | bool b => exact absurd rfl (hv b)
    | number q => simp only [Expr.eval, hc]
    | str s => simp only [Expr.eval, hc]
    | nil => simp only [Expr.eval, hc]

/-- C8 witness: at a concrete Boolean condition the taken branch is
returned, and at a concrete Number condition the runtime error names
the type. -/
theorem ternary_evaluation_semantics_witness :
    (Expr.ternary (.literal .ltrue 0 4) (.literal (.number 1) 7 1)
        (.literal (.number 2) 11 1) 0 12).eval Environment.new =
      (Expr.literal (.number 1) 7 1).eval Environment.new
    ∧ (Expr.ternary (.literal (.number 5) 0 1) (.literal (.number 1) 4 1)
        (.literal (.number 2) 8 1) 0 9).eval Environment.new =
      .err ⟨"The condition of a ternary operator must resolve to a boolean but was Number",
            0, 9⟩ Environment.new := by
  constructor
  · exact ternary_evaluation_semantics.1 (.literal .ltrue 0 4) (.literal (.number 1) 7 1)
      (.literal (.number 2) 11 1) 0 12 Environment.new Environment.new rfl
  · exact ternary_evaluation_semantics.2.2.1 (.literal (.number 5) 0 1)
      (.literal (.number 1) 4 1) (.literal (.number 2) 8 1) 0 9
      Environment.new Environment.new (.number 5) rfl (fun b h => by cases h)

/-- Closed form of `consumeWhile`: it consumes exactly the
`takeWhile` prefix, leaves the `dropWhile` suffix, and reports
`terminated` iff the predicate (not end of input) stopped it. -/
theorem consumeWhile_eq (f : Char → Bool) (l : List Char) :
    consumeWhile f l =
      ⟨(l.takeWhile f).length, !(l.dropWhile f).isEmpty, l.takeWhile f, l.dropWhile f⟩ := by
  induction l with
  | nil => rfl
  | cons a t ih =>
    by_cases h : f a = true
    · simp [consumeWhile, h, List.takeWhile_cons, List.dropWhile_cons, ih]
    · simp only [Bool.not_eq_true] at h
      simp [consumeWhile, h, List.takeWhile_cons, List.dropWhile_cons]

/-- A digit is none of the scanner's special characters. -/
theorem isDigit_ne (c x : Char) (hc : isDigit c = true) (hx : isDigit x = false) :
    c ≠ x := by
  intro h
  rw [h, hx] at hc
  exact Bool.noConfusion hc

/-- `takeWhile` passes over a prefix on which the predicate holds. -/
theorem takeWhile_append_all (f : Char → Bool) (l m : List Char)
    (hl : ∀ x ∈ l, f x = true) : (l ++ m).takeWhile f = l ++ m.takeWhile f := by
  induction l with
  | nil => simp
  | cons a t ih =>
    have ha := hl a (List.mem_cons_self a t)
    simp [List.takeWhile_cons, ha, ih (fun x hx => hl x (List.mem_cons_of_mem a hx))]

/-- `dropWhile` passes over a prefix on which the predicate holds. -/
theorem dropWhile_append_all (f : Char → Bool) (l m : List Char)
    (hl : ∀ x ∈ l, f x = true) : (l ++ m).dropWhile f = m.dropWhile f := by
  induction l with
  | nil => simp
  | cons a t ih =>
    have ha := hl a (List.mem_cons_self a t)
    simp [List.dropWhile_cons, ha, ih (fun x hx => hl x (List.mem_cons_of_mem a hx))]

/-- The scanner's digit branch accumulates exactly the spec's number
lexeme, and the recorded consumed count is that lexeme's length. -/
theorem numberLexConsumed_eq_spec (c : Char) (cs : List Char) :
    numberLexConsumed c cs = (specNumberLexeme c cs, (specNumberLexeme c cs).length) := by
  simp only [numberLexConsumed, specNumberLexeme, consumeWhile_eq]
  by_cases h1 : (cs.dropWhile isDigit).head? = some '.'
  · by_cases h2 : (cs.dropWhile isDigit).tail.head?.elim false isDigit = true
    · rw [if_pos h1, if_pos h2, if_pos (And.intro h1 h2)]
      simp only [Prod.mk.injEq, true_and, List.length_cons, List.length_append]
      omega
    · rw [if_pos h1, if_neg h2, if_neg (fun hh => h2 hh.2)]
      simp only [Prod.mk.injEq, true_and, List.length_cons]
      omega
  · rw [if_neg h1, if_neg (fun hh => h1 hh.1)]
    simp only [Prod.mk.injEq, true_and, List.length_cons]
    omega

/-- A digit-leading string enters the decimal mantissa parser (it can
be neither sign prefix). -/
theorem rustParseF64_cons_digit (c : Char) (t : List Char) (hc : isDigit c = true) :
    rustParseF64 (c :: t) = parseDecimal 1 (c :: t) := by
  have hp : ¬((c :: t : List Char).head? = some '+') := by
    simp only [List.head?_cons, Option.some.injEq]
    exact isDigit_ne c '+' hc (by decide)
  have hm : ¬((c :: t : List Char).head? = some '-') := by
    simp only [List.head?_cons, Option.some.injEq]
    exact isDigit_ne c '-' hc (by decide)
  simp only [rustParseF64, if_neg hp, if_neg hm]

/-- A nonempty pure-digit mantissa parses successfully. -/
theorem parseDecimal_digits_int (c : Char) (ds : List Char) (hc : isDigit c = true)
    (hds : ∀ x ∈ ds, isDigit x = true) :
    (parseDecimal 1 (c :: ds)).isSome = true := by
  have hall : ∀ x ∈ c :: ds, isDigit x = true := by
    intro x hx
    rcases List.mem_cons.mp hx with h | h
    · rw [h]; exact hc
    · exact hds x h
  have htw : (c :: ds).takeWhile isDigit = c :: ds :=
    List.takeWhile_eq_self_iff.mpr hall
  have hdw : (c :: ds).dropWhile isDigit = [] :=
    List.dropWhile_eq_nil_iff.mpr hall
  simp [parseDecimal, htw, hdw, parseExponentPart]

/-- A digit mantissa with a fractional digit tail parses
successfully. -/
theorem parseDecimal_digits_frac (c : Char) (ds fs : List Char) (hc : isDigit c = true)
    (hds : ∀ x ∈ ds, isDigit x = true) (hfs : ∀ x ∈ fs, isDigit x = true) :
    (parseDecimal 1 ((c :: ds) ++ '.' :: fs)).isSome = true := by
  have hall : ∀ x ∈ c :: ds, isDigit x = true := by
    intro x hx
    rcases List.mem_cons.mp hx with h | h
    · rw [h]; exact hc
    · exact hds x h
  have hdot : isDigit '.' = false := by decide
  have htw : ((c :: ds) ++ '.' :: fs).takeWhile isDigit = c :: ds := by
    rw [takeWhile_append_all isDigit _ _ hall]
    simp [List.takeWhile_cons, hdot]
  have hdw : ((c :: ds) ++ '.' :: fs).dropWhile isDigit = '.' :: fs := by
    rw [dropWhile_append_all isDigit _ _ hall]
    simp [List.dropWhile_cons, hdot]
  have htw2 : fs.takeWhile isDigit = fs := List.takeWhile_eq_self_iff.mpr hfs
  have hdw2 : fs.dropWhile isDigit = [] := List.dropWhile_eq_nil_iff.mpr hfs
  simp only [parseDecimal]
  rw [htw, hdw]
  simp [parseExponentPart, htw2, hdw2]

/-- The spec's number lexeme always parses as a 64-bit float. -/
theorem rustParseF64_specLexeme_isSome (c : Char) (cs : List Char)
    (hc : isDigit c = true) :
    (rustParseF64 (specNumberLexeme c cs)).isSome = true := by
  have hds : ∀ x ∈ cs.takeWhile isDigit, isDigit x = true :=
    fun x hx => List.mem_takeWhile_imp hx
  simp only [specNumberLexeme]
  by_cases h : (cs.dropWhile isDigit).head? = some '.'
      ∧ (cs.dropWhile isDigit).tail.head?.elim false isDigit = true
  · rw [if_pos h, List.cons_append, rustParseF64_cons_digit _ _ hc,
        ← List.cons_append]
    exact parseDecimal_digits_frac c _ _ hc hds
      (fun x hx => List.mem_takeWhile_imp hx)
  · rw [if_neg h, rustParseF64_cons_digit _ _ hc]
    have : (parseDecimal 1 (c :: cs.takeWhile isDigit)).isSome = true :=
      parseDecimal_digits_int c _ hc hds
    exact this

/-- A digit at the cursor always selects the number branch. -/
theorem nextToken_digit (c : Char) (cs : List Char) (i : Nat) (hc : isDigit c = true) :
    nextToken (c :: cs) i = numberToken c cs i := by
  unfold nextToken
  dsimp only
  rw [if_neg (isDigit_ne c '(' hc (by decide)),
      if_neg (isDigit_ne c ')' hc (by decide)),
      if_neg (isDigit_ne c '{' hc (by decide)),
      if_neg (isDigit_ne c '}' hc (by decide)),
      if_neg (isDigit_ne c ',' hc (by decide)),
      if_neg (isDigit_ne c '.' hc (by decide)),
      if_neg (isDigit_ne c '-' hc (by decide)),
      if_neg (isDigit_ne c '+' hc (by decide)),
      if_neg (isDigit_ne c ';' hc (by decide)),
      if_neg (isDigit_ne c ':' hc (by decide)),
      if_neg (isDigit_ne c '?' hc (by decide)),
      if_neg (isDigit_ne c '/' hc (by decide)),
      if_neg (isDigit_ne c '*' hc (by decide)),
      if_neg (isDigit_ne c '"' hc (by decide)),
      if_neg (isDigit_ne c '!' hc (by decide)),
      if_neg (isDigit_ne c '=' hc (by decide)),
      if_neg (isDigit_ne c '<' hc (by decide)),
      if_neg (isDigit_ne c '>' hc (by decide)),
      if_pos hc]

/-- C10: with the cursor at a digit, the scanner emits a number token
whose lexeme is the maximal digit run followed by a fractional part
only when a `.` is immediately followed by another digit (two
characters of lookahead; a trailing `.` is left unconsumed, as the
consumed length is exactly the lexeme's length), and the lexeme always
parses successfully as a 64-bit float — the internal
`str::parse::<f64>().unwrap()` never fails. -/
theorem number_scan_never_fails (c : Char) (cs : List Char) (i : Nat)
    (hc : isDigit c = true) :
    nextToken (c :: cs) i =
      ⟨.literal (.number ((rustParseF64 (specNumberLexeme c cs)).getD 0)), i,
        (specNumberLexeme c cs).length⟩
    ∧ (rustParseF64 (specNumberLexeme c cs)).isSome = true := by
  constructor
  · rw [nextToken_digit c cs i hc]
    simp only [numberToken, numberLexConsumed_eq_spec]
  · exact rustParseF64_specLexeme_isSome c cs hc

/-- C10 witness: scanning `1.5x` consumes exactly the lexeme `1.5`
(three characters), `7.` consumes only `7` (the trailing dot is left),
and both lexemes parse successfully. -/
theorem number_scan_never_fails_witness :
    nextToken ['1', '.', '5', 'x'] 0 =
      ⟨.literal (.number ((rustParseF64 (specNumberLexeme '1' ['.', '5', 'x'])).getD 0)), 0,
        (specNumberLexeme '1' ['.', '5', 'x']).length⟩
    ∧ (rustParseF64 (specNumberLexeme '1' ['.', '5', 'x'])).isSome = true
    ∧ specNumberLexeme '1' ['.', '5', 'x'] = ['1', '.', '5']
    ∧ specNumberLexeme '7' ['.'] = ['7']
    ∧ (rustParseF64 (specNumberLexeme '7' ['.'])).isSome = true :=
  ⟨(number_scan_never_fails '1' ['.', '5', 'x'] 0 (by decide)).1,
   (number_scan_never_fails '1' ['.', '5', 'x'] 0 (by decide)).2,
   by decide, by decide,
   (number_scan_never_fails '7' ['.'] 0 (by decide)).2⟩
